import Mathlib

/-!
Verification of the generic PDF discovery / download / extraction pipeline
(`pdf_downloader.py`, `nirf_pdf_scraper.py`, `nirf_data_analyzer.py`).

The Python code is shallowly embedded: texts are `List Char`, byte strings are
`List Nat`, the filesystem is a map `String → Option (List Nat)`, and the
network is an explicit oracle indexed by attempt number.  Library calls whose
exact behaviour is irrelevant to the verified claims (`urljoin`, `md5`) are
taken as function parameters, so every theorem quantifies over them.
Exceptions are modelled by `Option`/`Except` results, and the regular
expressions actually occurring in the source (`Label[:\s]+([^\n]+)`,
`Label[:\s]+(\d+)`, `Label[:\s]+([\d.]+)`, `#(\d+)`, `\d+\.?\d*`, and the
`.*x.*` / `.*x$` URL patterns) are embedded by dedicated leftmost-match
scanners that follow Python's greedy backtracking semantics for exactly these
shapes.
-/

namespace PdfPipeline

/-! ## Basic character and list-of-char helpers (Python string semantics) -/

/-- Python `\s` for the ASCII range: space, tab, newline, carriage return,
vertical tab, form feed.  (Unicode whitespace is outside the model; all
inputs considered here are ASCII.) -/
def isPySpace (c : Char) : Bool :=
  c == ' ' || c == '\t' || c == '\n' || c == '\r' || c == '\x0b' || c == '\x0c'

/-- Python `\w` for the ASCII range: alphanumeric or underscore. -/
def isPyWord (c : Char) : Bool :=
  c.isAlphanum || c == '_'

/-- Case-insensitive character equality (ASCII, as used by `re.IGNORECASE`
on the ASCII-only label patterns of the source). -/
def lcEq (a b : Char) : Bool :=
  a.toLower == b.toLower

/-- Does `s` start with `pat` (case-sensitively)? -/
def startsWithL {α : Type} [BEq α] : List α → List α → Bool
  | [], _ => true
  | _ :: _, [] => false
  | p :: ps, c :: cs => p == c && startsWithL ps cs

/-- Does `s` start with `pat`, comparing case-insensitively? -/
def startsWithCI : List Char → List Char → Bool
  | [], _ => true
  | _ :: _, [] => false
  | p :: ps, c :: cs => lcEq p c && startsWithCI ps cs

/-- Does `pat` occur as a contiguous substring of `s`?  This is the semantics
of `re.search(r'.*PAT.*', s)` for a literal `PAT` (the dot-stars may match
the empty string). -/
def containsL (pat : List Char) : List Char → Bool
  | [] => pat.isEmpty
  | c :: rest => startsWithL pat (c :: rest) || containsL pat rest

/-- Case-insensitive substring test. -/
def containsCI (pat s : List Char) : Bool :=
  containsL (pat.map Char.toLower) (s.map Char.toLower)

/-- Does `s` end with `suf` (case-sensitively)? -/
def endsWithL (suf s : List Char) : Bool :=
  startsWithL suf.reverse s.reverse

/-- Python `s.lower().endswith(suf)` for an already-lowercase `suf`. -/
def lowerEndsWith (suf s : List Char) : Bool :=
  endsWithL suf (s.map Char.toLower)

/-- Python `str.strip()`: remove leading and trailing whitespace. -/
def pyStrip (s : List Char) : List Char :=
  ((s.dropWhile isPySpace).reverse.dropWhile isPySpace).reverse

/-- Helper for `re.sub(r'\s+', '_', s)`: the Boolean records whether the
previous character was part of a whitespace run already replaced. -/
def collapseWsAux : Bool → List Char → List Char
  | _, [] => []
  | prevSpace, c :: rest =>
    if isPySpace c then
      if prevSpace then collapseWsAux true rest
      else '_' :: collapseWsAux true rest
    else c :: collapseWsAux false rest

/-- Python `re.sub(r'\s+', '_', s)`: collapse each whitespace run to one
underscore. -/
def collapseWs (s : List Char) : List Char :=
  collapseWsAux false s

/-- Python `s.split(sep)` for a one-character separator (keeps empty parts,
like `str.split` with an explicit separator). -/
def splitOnChar (sep : Char) : List Char → List (List Char)
  | [] => [[]]
  | c :: rest =>
    if c == sep then [] :: splitOnChar sep rest
    else match splitOnChar sep rest with
      | [] => [[c]]
      | part :: parts => (c :: part) :: parts

/-- Helper for `str.split()` with no separator: `acc` is the reversed
current word. -/
def pyWordsAux : List Char → List Char → List (List Char)
  | acc, [] => if acc.isEmpty then [] else [acc.reverse]
  | acc, c :: rest =>
    if isPySpace c then
      if acc.isEmpty then pyWordsAux [] rest
      else acc.reverse :: pyWordsAux [] rest
    else pyWordsAux (c :: acc) rest

/-- Python `s.split()` (no argument): split on whitespace runs, dropping
empty tokens.  Used for `len(full_text.split())`. -/
def pyWords (s : List Char) : List (List Char) :=
  pyWordsAux [] s

/-- Hexadecimal digit test, for `urllib.parse.unquote`. -/
def isHexDigit (c : Char) : Bool :=
  c.isDigit || ('a' ≤ c && c ≤ 'f') || ('A' ≤ c && c ≤ 'F')

/-- Value of a hexadecimal digit. -/
def hexVal (c : Char) : Nat :=
  if c.isDigit then c.toNat - '0'.toNat
  else if 'a' ≤ c && c ≤ 'f' then c.toNat - 'a'.toNat + 10
  else c.toNat - 'A'.toNat + 10

/-- Python `urllib.parse.unquote` restricted to single-byte escapes: each
`%XX` pair with hexadecimal digits becomes the character with that code
point, everything else is copied.  (UTF-8 multi-byte escape sequences are
outside the model; no input considered here contains them.) -/
def pyUnquote : List Char → List Char
  | [] => []
  | '%' :: a :: b :: rest =>
    if isHexDigit a && isHexDigit b then
      Char.ofNat (16 * hexVal a + hexVal b) :: pyUnquote rest
    else '%' :: pyUnquote (a :: b :: rest)
  | c :: rest => c :: pyUnquote rest

/-- `os.path.basename` (POSIX): the part after the last slash. -/
def basenameL (s : List Char) : List Char :=
  (s.reverse.takeWhile (fun c => c != '/')).reverse

/-- Decimal digit list to a natural number. -/
def digitsToNat (ds : List Char) : Nat :=
  ds.foldl (fun acc c => 10 * acc + (c.toNat - '0'.toNat)) 0

/-- Exact value of a decimal literal `intDigits.fracDigits`, as Python's
`float` would produce it (the model uses exact rational arithmetic in place
of binary floating point; every numeric claim below involves values that are
exactly representable either way). -/
def ratOfParts (intDigits fracDigits : List Char) : ℚ :=
  (digitsToNat intDigits : ℚ) + (digitsToNat fracDigits : ℚ) / 10 ^ fracDigits.length

/-- Python `float(token)` for a token drawn from the character class
`[\d.]+`: defined exactly when the token has at most one dot and at least
one digit; otherwise `float` raises `ValueError`, modelled as `none`. -/
def pyFloat (t : List Char) : Option ℚ :=
  if t.count '.' ≤ 1 && t.any Char.isDigit then
    let ip := t.takeWhile (fun c => c != '.')
    let rest := t.drop ip.length
    match rest with
    | [] => some (digitsToNat ip : ℚ)
    | _ :: fp => some (ratOfParts ip fp)
  else none

/-! ## Embedded regular-expression matchers

The source (`nirf_pdf_scraper._extract_structured_data`) only ever uses
patterns of five fixed shapes; each shape gets a dedicated scanner with
Python's leftmost-match, greedy-with-backtracking semantics. -/

/-- The character class `[:\s]` appearing after every label. -/
def isColonSpace (c : Char) : Bool :=
  c == ':' || isPySpace c

/-- The character class `[\d.]`. -/
def isDigitDot (c : Char) : Bool :=
  c.isDigit || c == '.'

/-- Backtracking step for `LABEL[:\s]+([^\n]+)` when the `[:\s]+` run
extends to the end of the text: the greedy `[:\s]+` gives characters back
from the right until `[^\n]+` can match at least one character.  The first
(largest) index `k ≥ 1` whose character is not a newline wins, and the
group is the maximal newline-free run from there. -/
def backtrackRun (run : List Char) : Option (List Char) :=
  match ((List.range run.length).filter
      (fun k => decide (1 ≤ k) && (run.getD k '\n') != '\n')).getLast? with
  | some k => some ((run.drop k).takeWhile (fun c => c != '\n'))
  | none => none

/-- Match `LABEL[:\s]+([^\n]+)` (with `re.IGNORECASE`) anchored at the head
of `text`; returns the captured group.  When the `[:\s]+` run is followed by
a further character, that character is necessarily not a newline (newline is
in `[:\s]`, so the run is maximal), and the greedy run needs no backtracking;
otherwise backtracking inside the run applies. -/
def matchLabelLineAt (label text : List Char) : Option (List Char) :=
  if startsWithCI label text then
    let rem := text.drop label.length
    let run := rem.takeWhile isColonSpace
    if run.isEmpty then none
    else
      match rem.drop run.length with
      | [] => backtrackRun run
      | c :: rest => some ((c :: rest).takeWhile (fun x => x != '\n'))
  else none

/-- `re.search(r'LABEL[:\s]+([^\n]+)', text, re.IGNORECASE)`: scan positions
left to right, return the group of the leftmost match. -/
def searchLabelLine (label : List Char) : List Char → Option (List Char)
  | [] => none
  | c :: rest =>
    match matchLabelLineAt label (c :: rest) with
    | some g => some g
    | none => searchLabelLine label rest

/-- Match `LABEL[:\s]+(\d+)` anchored at the head of `text`.  The group
class (digits) is disjoint from `[:\s]`, so the greedy run never needs to
backtrack: the match succeeds exactly when a digit follows the maximal
`[:\s]` run. -/
def matchLabelNumAt (label text : List Char) : Option (List Char) :=
  if startsWithCI label text then
    let rem := text.drop label.length
    let run := rem.takeWhile isColonSpace
    if run.isEmpty then none
    else
      let rest := rem.drop run.length
      let ds := rest.takeWhile Char.isDigit
      if ds.isEmpty then none else some ds
  else none

/-- `re.search(r'LABEL[:\s]+(\d+)', text, re.IGNORECASE)`. -/
def searchLabelNum (label : List Char) : List Char → Option (List Char)
  | [] => none
  | c :: rest =>
    match matchLabelNumAt label (c :: rest) with
    | some g => some g
    | none => searchLabelNum label rest

/-- `re.search(r'#(\d+)', text)`: leftmost `#` that is followed by at least
one digit; the group is the maximal digit run. -/
def searchHashNum : List Char → Option (List Char)
  | [] => none
  | c :: rest =>
    if c == '#' then
      let ds := rest.takeWhile Char.isDigit
      if ds.isEmpty then searchHashNum rest else some ds
    else searchHashNum rest

/-- Match `LABEL[:\s]+([\d.]+)` anchored at the head of `text`; returns the
group together with the total length of the match (used to continue a
non-overlapping `findall` scan).  As for digits, `[\d.]` is disjoint from
`[:\s]`, so no backtracking occurs. -/
def matchLabelNumDotAt (label text : List Char) : Option (List Char × Nat) :=
  if startsWithCI label text then
    let rem := text.drop label.length
    let run := rem.takeWhile isColonSpace
    if run.isEmpty then none
    else
      let rest := rem.drop run.length
      let g := rest.takeWhile isDigitDot
      if g.isEmpty then none
      else some (g, label.length + run.length + g.length)
  else none

/-- Fuelled worker for `re.findall(r'LABEL[:\s]+([\d.]+)', text,
re.IGNORECASE)`: leftmost-first, non-overlapping; after a match the scan
resumes at the end of the whole match.  Every step consumes at least one
character, so `text.length` is always enough fuel. -/
def findallLabelNumDotAux (label : List Char) : Nat → List Char → List (List Char)
  | 0, _ => []
  | _ + 1, [] => []
  | fuel + 1, c :: rest =>
    match matchLabelNumDotAt label (c :: rest) with
    | some (g, len) => g :: findallLabelNumDotAux label fuel ((c :: rest).drop len)
    | none => findallLabelNumDotAux label fuel rest

/-- `re.findall(r'LABEL[:\s]+([\d.]+)', text, re.IGNORECASE)`. -/
def findallLabelNumDot (label text : List Char) : List (List Char) :=
  findallLabelNumDotAux label text.length text

/-- Match `\d+\.?\d*` anchored at the head of `text`: one-plus digits, an
optional dot, zero-plus digits, all greedy; returns the exact numeric value
(such a token is always a valid `float` literal) and the match length. -/
def matchNumberAt (text : List Char) : Option (ℚ × Nat) :=
  let ds := text.takeWhile Char.isDigit
  if ds.isEmpty then none
  else
    match text.drop ds.length with
    | '.' :: rest =>
      let fs := rest.takeWhile Char.isDigit
      some (ratOfParts ds fs, ds.length + 1 + fs.length)
    | _ => some ((digitsToNat ds : ℚ), ds.length)

/-- Fuelled worker for `re.findall(r'\d+\.?\d*', text)`. -/
def findallNumbersAux : Nat → List Char → List ℚ
  | 0, _ => []
  | _ + 1, [] => []
  | fuel + 1, c :: rest =>
    match matchNumberAt (c :: rest) with
    | some (q, len) => q :: findallNumbersAux fuel ((c :: rest).drop len)
    | none => findallNumbersAux fuel rest

/-- `re.findall(r'\d+\.?\d*', text)`, with each token converted by
`float` (conversion never fails for tokens of this shape). -/
def findallNumbers (text : List Char) : List ℚ :=
  findallNumbersAux text.length text

/-! ## `NIRFPDFScraper._extract_structured_data` -/

/-- The mined fields of `structured_data`; a `none` field models an absent
dictionary key. -/
structure StructuredData where
  collegeName : Option (List Char)
  location : Option (List Char)
  rank : Option Nat
  scores : Option (List ℚ)
  averageScore : Option ℚ
  allNumbers : Option (List ℚ)
  deriving Repr, DecidableEq

/-- The college-name mining loop (`college_patterns`, first match wins, the
loop `break`s at the first pattern with a match).  The captured group is
stripped with `str.strip()`. -/
def extract_college_name (text : List Char) : Option (List Char) :=
  match searchLabelLine "College".data text with
  | some g => some (pyStrip g)
  | none =>
    match searchLabelLine "Institute".data text with
    | some g => some (pyStrip g)
    | none =>
      match searchLabelLine "University".data text with
      | some g => some (pyStrip g)
      | none =>
        match searchLabelLine "Name".data text with
        | some g => some (pyStrip g)
        | none => none

/-- The location mining loop (`location_patterns`, first match wins). -/
def extract_location (text : List Char) : Option (List Char) :=
  match searchLabelLine "Address".data text with
  | some g => some (pyStrip g)
  | none =>
    match searchLabelLine "Location".data text with
    | some g => some (pyStrip g)
    | none =>
      match searchLabelLine "City".data text with
      | some g => some (pyStrip g)
      | none =>
        match searchLabelLine "State".data text with
        | some g => some (pyStrip g)
        | none => none

/-- The rank mining loop (`ranking_patterns`, first match wins, parsed by
`int`). -/
def extract_rank (text : List Char) : Option Nat :=
  match searchLabelNum "Rank".data text with
  | some g => some (digitsToNat g)
  | none =>
    match searchLabelNum "Position".data text with
    | some g => some (digitsToNat g)
    | none =>
      match searchHashNum text with
      | some g => some (digitsToNat g)
      | none => none

/-- All score tokens: `findall` over the three `score_patterns` in order,
`extend`ed into one list (all matches collected, not first-match). -/
def scoreTokens (text : List Char) : List (List Char) :=
  findallLabelNumDot "Score".data text
    ++ findallLabelNumDot "Rating".data text
    ++ findallLabelNumDot "Points".data text

/-- The list comprehension `[float(score) for score in matches]`: converts
left to right, raising `ValueError` (modelled as `.error`) at the first
token `float` rejects. -/
def floatsOf : List (List Char) → Except String (List ℚ)
  | [] => .ok []
  | t :: ts =>
    match pyFloat t with
    | some q =>
      match floatsOf ts with
      | .ok l => .ok (q :: l)
      | .error e => .error e
    | none => .error "could not convert string to float"

/-- `NIRFPDFScraper._extract_structured_data` (lines 308-382): mines college
name, location, rank, scores (with arithmetic-mean average) and the first 20
raw numbers.  The only statement that can raise is the `float` conversion of
score tokens; a raised `ValueError` propagates to the caller (`.error`). -/
def extract_structured_data (text : List Char) : Except String StructuredData :=
  let college := extract_college_name text
  let location := extract_location text
  let rank := extract_rank text
  match floatsOf (scoreTokens text) with
  | .error e => .error e
  | .ok floats =>
    let nums := findallNumbers text
    .ok
      { collegeName := college
        location := location
        rank := rank
        scores := if floats.isEmpty then none else some floats
        averageScore :=
          if floats.isEmpty then none
          else some (floats.sum / (floats.length : ℚ))
        allNumbers := if nums.isEmpty then none else some (nums.take 20) }

/-! ## `NIRFPDFScraper.extract_text_from_pdf`

The `pypdf` library is abstracted by an `OpenOutcome`: opening the file
either raises (any exception up to and including reading the page count and
metadata) or yields a reader with a page list, optional document metadata
and the file size.  Each page's `extract_text()` either returns text or
raises, which `PageOutcome` records.  Wall-clock timestamps
(`extracted_at`) are outside the model. -/

/-- Result of `page.extract_text()` for one page. -/
inductive PageOutcome where
  | ok (text : List Char)
  | err (msg : String)
  deriving Repr, DecidableEq

/-- Document-level metadata (`/Title`, `/Author`, `/Subject`, `/Creator`). -/
structure DocMeta where
  title : String
  author : String
  subject : String
  creator : String
  deriving Repr, DecidableEq

/-- Abstraction of an opened `pypdf.PdfReader` plus `stat()` data. -/
structure PdfReader where
  pages : List PageOutcome
  meta : Option DocMeta
  fileSize : Nat
  deriving Repr, DecidableEq

/-- Opening the PDF either raises or yields a reader. -/
inductive OpenOutcome where
  | failure (msg : String)
  | ok (reader : PdfReader)
  deriving Repr, DecidableEq

/-- One entry of the `page_texts` list. -/
structure PageEntry where
  pageNumber : Nat
  text : List Char
  charCount : Nat
  error : Option String
  deriving Repr, DecidableEq

/-- The metadata dictionary of the extraction result. -/
structure Metadata where
  filename : String
  numPages : Option Nat
  fileSize : Option Nat
  docMeta : Option DocMeta
  error : Option String
  deriving Repr, DecidableEq

/-- The dictionary returned by `extract_text_from_pdf`. -/
structure ExtractedDocument where
  metadata : Metadata
  fullText : List Char
  pages : List PageEntry
  structuredData : StructuredData
  wordCount : Nat
  charCount : Nat
  deriving Repr, DecidableEq

/-- The empty `structured_data` dictionary `{}`. -/
def emptyStructured : StructuredData :=
  { collegeName := none, location := none, rank := none
    scores := none, averageScore := none, allNumbers := none }

/-- The error-fallback document built by the outer `except` clause of
`extract_text_from_pdf`: empty text, no pages, empty structured data, zero
counts, metadata holding only the filename and the error note. -/
def errorDoc (filename : String) (msg : String) : ExtractedDocument :=
  { metadata :=
      { filename := filename, numPages := none, fileSize := none
        docMeta := none, error := some msg }
    fullText := []
    pages := []
    structuredData := emptyStructured
    wordCount := 0
    charCount := 0 }

/-- `full_text`: the concatenation of the successfully extracted page texts,
each followed by a newline; a page whose extraction raised contributes
nothing to `full_text`. -/
def fullTextOf (r : PdfReader) : List Char :=
  (r.pages.map fun p =>
    match p with
    | .ok t => t ++ ['\n']
    | .err _ => []).flatten

/-- The `page_texts` entry built for page `i` (0-based): a successful page
records its text and character count; a failing page records empty text,
zero characters and the error note. -/
def pageEntryOf (i : Nat) (p : PageOutcome) : PageEntry :=
  match p with
  | .ok t => { pageNumber := i + 1, text := t, charCount := t.length, error := none }
  | .err m => { pageNumber := i + 1, text := [], charCount := 0, error := some m }

/-- `NIRFPDFScraper.extract_text_from_pdf` (lines 230-306).  Every internal
error — a failure to open/read the document, or the `ValueError` that
`_extract_structured_data` can raise — is caught by the outer `except` and
turned into `errorDoc`; per-page failures are caught individually inside
the page loop. -/
def extract_text_from_pdf (filename : String) (o : OpenOutcome) : ExtractedDocument :=
  match o with
  | .failure msg => errorDoc filename msg
  | .ok r =>
    let fullText := fullTextOf r
    match extract_structured_data fullText with
    | .error msg => errorDoc filename msg
    | .ok sd =>
      { metadata :=
          { filename := filename, numPages := some r.pages.length
            fileSize := some r.fileSize, docMeta := r.meta, error := none }
        fullText := fullText
        pages := r.pages.enum.map fun ip => pageEntryOf ip.1 ip.2
        structuredData := sd
        wordCount := (pyWords fullText).length
        charCount := fullText.length }

/-! ## `PDFDownloader._generate_filename` (lines 232-262)

`urlparse` is embedded for the scheme-and-authority URL forms the program
meets (`scheme://host/path?query#fragment` and plain relative references);
`hashlib.md5(...).hexdigest()[:8]` is an opaque library call, taken as a
function parameter `digest`. -/

/-- The suffix of `s` after the first occurrence of `pat`, if any. -/
def afterSub (pat : List Char) : List Char → Option (List Char)
  | [] => if pat.isEmpty then some [] else none
  | c :: rest =>
    if startsWithL pat (c :: rest) then some ((c :: rest).drop pat.length)
    else afterSub pat rest

/-- `urlparse(url).path`: strip the fragment (first `#`) and the query
(first `?`); if the remainder has a `://`, the path starts at the first
slash after the authority, otherwise the whole remainder is the path. -/
def pyUrlPath (url : List Char) : List Char :=
  let noQuery := (url.takeWhile (fun c => c != '#')).takeWhile (fun c => c != '?')
  match afterSub "://".data noQuery with
  | some after => after.drop (after.takeWhile (fun c => c != '/')).length
  | none => noQuery

/-- `urlparse(url).netloc`: the authority component between `://` and the
next slash (fragment and query stripped first). -/
def pyNetloc (url : List Char) : List Char :=
  let noQuery := (url.takeWhile (fun c => c != '#')).takeWhile (fun c => c != '?')
  match afterSub "://".data noQuery with
  | some after => after.takeWhile (fun c => c != '/')
  | none => []

/-- The characters kept by `re.sub(r'[^\w\s-]', '', s)`. -/
def keepFnameChar (c : Char) : Bool :=
  isPyWord c || isPySpace c || c == '-'

/-- The sanitized, collapsed, truncated title used by the title branch of
`_generate_filename`: `re.sub(r'[^\w\s-]', '', title.strip())`, then
`re.sub(r'\s+', '_', ...)`, then `[:maxLen]`. -/
def cleanTitleOf (maxLen : Nat) (title : List Char) : List Char :=
  (collapseWs ((pyStrip title).filter keepFnameChar)).take maxLen

/-- The URL-derived branches of `_generate_filename`, reached when the
title branch does not return: the percent-decoded URL basename when it
already ends in `.pdf` case-insensitively; else the sanitized last
non-empty path segment with the extension appended; else the
`document_<hash>.pdf` fallback, with `digest url` standing for
`hashlib.md5(url.encode()).hexdigest()[:8]`. -/
def url_fallback_name (digest : List Char → List Char) (url : List Char) :
    List Char :=
  let urlFilename := basenameL (pyUnquote (pyUrlPath url))
  if !urlFilename.isEmpty && lowerEndsWith ".pdf".data urlFilename then
    urlFilename
  else
    let parts := (splitOnChar '/' (pyUrlPath url)).filter (fun p => !p.isEmpty)
    match parts.getLast? with
    | some lastPart =>
      let cn := collapseWs (lastPart.filter keepFnameChar)
      if cn.isEmpty then "document_".data ++ digest url ++ ".pdf".data
      else cn ++ ".pdf".data
    | none => "document_".data ++ digest url ++ ".pdf".data

/-- `PDFDownloader._generate_filename(url, title)`: the title branch when
the title is usable and sanitizes to something non-empty, otherwise the
URL-derived fall-through; `maxLen` is `config['filename_max_length']`
(default 100). -/
def generate_filename (digest : List Char → List Char) (maxLen : Nat)
    (url title : List Char) : List Char :=
  if !title.isEmpty && 3 < (pyStrip title).length then
    let ct := cleanTitleOf maxLen title
    if ct.isEmpty then url_fallback_name digest url
    else ct ++ ".pdf".data
  else url_fallback_name digest url

/-! ## `PDFDownloader.discover_pdf_links` (lines 95-159)

The parsed page is abstracted to the data the discovery code reads from it:
the document-ordered list of anchors carrying an `href` attribute (with the
attributes and surrounding text used by `_extract_title`), and the list of
`object`/`embed`/`iframe` tags.  `urljoin` is a library call, taken as the
function parameter `join`; the four default `link_selectors` and the default
`pdf_patterns`/`exclude_patterns` are embedded directly (CSS attribute
selectors compare case-sensitively, `re.search` with `re.IGNORECASE` does
not). -/

/-- An anchor element with an `href` attribute, as seen by the discovery
code: its `href`, its stripped text, its `title` and `alt` attributes, and
its parent's stripped text (if it has a parent). -/
structure Anchor where
  href : List Char
  linkText : List Char
  titleAttr : List Char
  altAttr : List Char
  parentText : Option (List Char)
  deriving Repr, DecidableEq

/-- An `object`/`embed`/`iframe` element: `src` is `tag.get('src') or
tag.get('data', '')`; `headingText` is the text of the first heading the
soup-wide scan of `_extract_title` accepts for this element (the scan walks
`h1`-`h6` in document order and accepts the first heading that contains the
element or is one of its ancestors and has non-empty text) — an abstraction
of the DOM-geometry walk. -/
structure EmbTag where
  src : List Char
  text : List Char
  titleAttr : List Char
  altAttr : List Char
  headingText : Option (List Char)
  parentText : Option (List Char)
  deriving Repr, DecidableEq

/-- A discovered link dictionary (`url`, `title`, `filename`, `source_url`,
`link_text`).  Two values are the same Python dict exactly when all five
fields agree, which is the equality `pdf_info not in pdf_links` uses. -/
structure DocumentLink where
  url : List Char
  title : List Char
  filename : List Char
  sourceUrl : List Char
  linkText : List Char
  deriving Repr, DecidableEq

/-- Suffix match where the regex anchor `$` also accepts a position before a
single trailing newline, as in Python's non-MULTILINE `re`. -/
def dollarEndsWith (suf s : List Char) : Bool :=
  endsWithL suf s || endsWithL (suf ++ ['\n']) s

/-- `PDFDownloader._matches_pdf_pattern` for the default configuration:
`.*\.pdf$`, `.*\.PDF$`, `.*\.pdf\?.*`, `.*\.PDF\?.*`, each searched with
`re.IGNORECASE` (so the upper-case variants are redundant); `.` never
crosses a newline, which for these literal cores reduces each pattern to a
suffix-or-substring test on the lowered URL. -/
def matches_pdf_pattern (url : List Char) : Bool :=
  let h := url.map Char.toLower
  dollarEndsWith ".pdf".data h || containsL ".pdf?".data h

/-- `PDFDownloader._matches_exclude_pattern` for the default configuration:
`.*\.php.*` and `.*download\.aspx.*`, case-insensitive. -/
def matches_exclude_pattern (url : List Char) : Bool :=
  containsCI ".php".data url || containsCI "download.aspx".data url

/-- The literal fallback title. -/
def defaultTitle : List Char := "PDF Document".data

/-- `PDFDownloader._extract_title(link, None)` — the anchor path, where no
soup is passed so the heading scan is skipped: title attribute (stripped,
if non-empty), else link text (if longer than 3), else alt attribute
(stripped, if non-empty), else parent text (if its length is between 10 and
200), else the fallback label. -/
def extract_title_anchor (a : Anchor) : List Char :=
  if !(pyStrip a.titleAttr).isEmpty then pyStrip a.titleAttr
  else if !a.linkText.isEmpty && 3 < a.linkText.length then a.linkText
  else if !(pyStrip a.altAttr).isEmpty then pyStrip a.altAttr
  else
    match a.parentText with
    | some t => if 10 ≤ t.length && t.length ≤ 200 then t else defaultTitle
    | none => defaultTitle

/-- `PDFDownloader._extract_title(tag, soup)` — the embedded-object path,
which additionally consults the heading scan between the alt attribute and
the parent text. -/
def extract_title_tag (t : EmbTag) : List Char :=
  if !(pyStrip t.titleAttr).isEmpty then pyStrip t.titleAttr
  else if !t.text.isEmpty && 3 < t.text.length then t.text
  else if !(pyStrip t.altAttr).isEmpty then pyStrip t.altAttr
  else
    match t.headingText with
    | some h => h
    | none =>
      match t.parentText with
      | some p => if 10 ≤ p.length && p.length ≤ 200 then p else defaultTitle
      | none => defaultTitle

/-- `PDFDownloader._process_pdf_link(link, href, base_url)`: excluded hrefs
yield `None`; otherwise the full link dictionary is built. -/
def process_pdf_link (digest : List Char → List Char) (maxLen : Nat)
    (join : List Char → List Char → List Char) (baseUrl : List Char)
    (a : Anchor) : Option DocumentLink :=
  if matches_exclude_pattern a.href then none
  else
    let title := extract_title_anchor a
    some
      { url := join baseUrl a.href
        title := title
        filename := generate_filename digest maxLen a.href title
        sourceUrl := baseUrl
        linkText := a.linkText.take 100 }

/-- `if pdf_info not in pdf_links: pdf_links.append(pdf_info)`. -/
def addUnique (acc : List DocumentLink) (l : DocumentLink) : List DocumentLink :=
  if l ∈ acc then acc else acc ++ [l]

/-- Append a processed link when it is not `None` and not already present. -/
def addIfSome (acc : List DocumentLink) : Option DocumentLink → List DocumentLink
  | some l => addUnique acc l
  | none => acc

/-- The default `link_selectors`, as predicates on the `href` attribute:
`a[href$=".pdf"]`, `a[href$=".PDF"]`, `a[href*=".pdf"]`, `a[href*="pdf"]`
(CSS attribute matching is case-sensitive). -/
def defaultSelectors : List (List Char → Bool) :=
  [ fun h => endsWithL ".pdf".data h
  , fun h => endsWithL ".PDF".data h
  , fun h => containsL ".pdf".data h
  , fun h => containsL "pdf".data h ]

/-- The embedded-object pass builds its dictionary inline, with an empty
title argument to `_generate_filename`. -/
def embTagLink (digest : List Char → List Char) (maxLen : Nat)
    (join : List Char → List Char → List Char) (baseUrl : List Char)
    (t : EmbTag) : DocumentLink :=
  { url := join baseUrl t.src
    title := extract_title_tag t
    filename := generate_filename digest maxLen t.src []
    sourceUrl := baseUrl
    linkText := t.text.take 100 }

/-- `PDFDownloader.discover_pdf_links` on a successfully fetched and parsed
page: the selector pass, the pattern pass and the embedded-object pass, each
appending links not already present (whole-dictionary comparison). -/
def discover_links_page (digest : List Char → List Char) (maxLen : Nat)
    (join : List Char → List Char → List Char) (targetUrl : List Char)
    (anchors : List Anchor) (embedded : List EmbTag) : List DocumentLink :=
  let pass1 := defaultSelectors.foldl
    (fun acc sel =>
      (anchors.filter (fun a => sel a.href)).foldl
        (fun acc a =>
          if a.href.isEmpty then acc
          else addIfSome acc (process_pdf_link digest maxLen join targetUrl a))
        acc)
    []
  let pass2 := anchors.foldl
    (fun acc a =>
      if matches_pdf_pattern a.href then
        addIfSome acc (process_pdf_link digest maxLen join targetUrl a)
      else acc)
    pass1
  embedded.foldl
    (fun acc t =>
      if !t.src.isEmpty && matches_pdf_pattern t.src then
        addUnique acc (embTagLink digest maxLen join targetUrl t)
      else acc)
    pass2

/-- `PDFDownloader.discover_pdf_links` including its failure semantics: a
fetch/parse failure (`none`) yields the empty list and is not escalated. -/
def discover_pdf_links (digest : List Char → List Char) (maxLen : Nat)
    (join : List Char → List Char → List Char) (targetUrl : List Char) :
    Option (List Anchor × List EmbTag) → List DocumentLink
  | none => []
  | some (anchors, embedded) =>
    discover_links_page digest maxLen join targetUrl anchors embedded

/-- A concrete stand-in for `urllib.parse.urljoin` covering the absolute,
root-relative and relative reference forms (no dot-segment normalization,
no query/fragment merging); used only to instantiate concrete scenarios —
every general theorem quantifies over the join function. -/
def urljoinApprox (base rel : List Char) : List Char :=
  if containsL "://".data rel then rel
  else if startsWithL "/".data rel then
    (match afterSub "://".data base with
     | some after =>
       base.take (base.length - after.length) ++ after.takeWhile (fun c => c != '/')
     | none => []) ++ rel
  else (base.reverse.dropWhile (fun c => c != '/')).reverse ++ rel

/-! ## `PDFDownloader.download_pdf` (lines 264-338)

The filesystem is a map from paths to byte contents; the network is an
oracle giving, for each 0-based attempt index, either a transport-level
failure (`requests.exceptions.RequestException`, including non-2xx raised
by `raise_for_status`), some other exception (the bare `except Exception`
arm, which `break`s), or a response with a content-type header and a body.
`time.sleep` calls are recorded in the `sleeps` trace.  The verification
peek is modelled as non-consuming (the response body is written in full);
the claims below do not depend on the bytes written in the peek branch. -/

/-- The bytes of the `%PDF` signature. -/
def pdfSigBytes : List Nat := [37, 80, 68, 70]

/-- Network outcome of one `session.get` attempt. -/
inductive NetResult where
  | failure
  | otherError
  | response (contentType : String) (body : List Nat)

/-- The configuration fields `download_pdf` reads. -/
structure DlConfig where
  maxRetries : Nat
  verifyPdfContent : Bool
  createSubdirs : Bool
  delayBetweenDownloads : Nat
  downloadDir : String
  deriving Repr

/-- The two fields of `pdf_info` that `download_pdf` reads. -/
structure PdfInfo where
  url : String
  filename : String
  deriving Repr, DecidableEq

/-- Observable result of one `download_pdf` call: the returned value
(`Some filepath` or `None`), the number of network attempts issued, the
trace of `time.sleep` durations, whether the not-a-PDF warning was logged
on the returning attempt, and the filesystem after the call. -/
structure DlState where
  result : Option String
  attempts : Nat
  sleeps : List Nat
  warned : Bool
  fs : String → Option (List Nat)

/-- Point update of the filesystem map. -/
def fsUpdate (fs : String → Option (List Nat)) (p : String) (c : List Nat) :
    String → Option (List Nat) :=
  fun q => if q = p then some c else fs q

/-- `re.sub(r'[^\w\-_.]', '_', domain)` applied to `urlparse(url).netloc`. -/
def safe_domain (url : List Char) : List Char :=
  (pyNetloc url).map fun c =>
    if isPyWord c || c == '-' || c == '.' then c else '_'

/-- The resolved target path of a download (`download_dir / safe_domain /
filename` with subdirectories, else `download_dir / filename`). -/
def target_path (cfg : DlConfig) (info : PdfInfo) : String :=
  if cfg.createSubdirs then
    cfg.downloadDir ++ "/" ++ (safe_domain info.url.data).asString ++ "/" ++ info.filename
  else cfg.downloadDir ++ "/" ++ info.filename

/-- The retry loop `for attempt in range(max_retries)`: `k` is the number of
loop iterations left, `i` the 0-based attempt index.  A transport failure on
the final attempt (`attempt == max_retries - 1`) ends the loop; earlier
failures sleep `2 ** attempt` seconds; any other exception `break`s; a
response is (optionally) verified — a mismatch only sets the warning flag —
then written to the target path, followed by the configured inter-download
delay. -/
def downloadGo (cfg : DlConfig) (info : PdfInfo) (path : String)
    (net : Nat → NetResult) (fs : String → Option (List Nat)) :
    Nat → Nat → DlState
  | 0, i => ⟨none, i, [], false, fs⟩
  | k + 1, i =>
    match net i with
    | .failure =>
      if i + 1 = cfg.maxRetries then ⟨none, i + 1, [], false, fs⟩
      else
        let s := downloadGo cfg info path net fs k (i + 1)
        ⟨s.result, s.attempts, 2 ^ i :: s.sleeps, s.warned, s.fs⟩
    | .otherError => ⟨none, i + 1, [], false, fs⟩
    | .response ct body =>
      let warned := cfg.verifyPdfContent
        && !containsL "pdf".data (ct.data.map Char.toLower)
        && !lowerEndsWith ".pdf".data info.url.data
        && !startsWithL pdfSigBytes (body.take 8)
      ⟨some path, i + 1,
        if 0 < cfg.delayBetweenDownloads then [cfg.delayBetweenDownloads] else [],
        warned, fsUpdate fs path body⟩

/-- `PDFDownloader.download_pdf`: resolve the target path; return it at once
(no network attempt) when the file already exists; otherwise run the retry
loop.  The function never raises: every exception class is handled inside
the loop, and a permanent failure is the `none` result. -/
def download_pdf (cfg : DlConfig) (info : PdfInfo) (net : Nat → NetResult)
    (fs : String → Option (List Nat)) : DlState :=
  let path := target_path cfg info
  if (fs path).isSome then ⟨some path, 0, [], false, fs⟩
  else downloadGo cfg info path net fs cfg.maxRetries 0

/-! ## `PDFDownloader.download_all_pdfs` (lines 340-415)

The per-link body of the download loop — the `download_pdf` call together
with its surrounding `try/except` — is abstracted by an outcome oracle
indexed by the position in the deduplicated list, so the bookkeeping
theorems hold whatever the downloads do. -/

/-- Outcome of processing one unique link: `download_pdf` returned a path,
returned `None`, or the loop body raised (the `except` arm, which records
an error message and a failed download). -/
inductive DlOutcome where
  | ok (filepath : String)
  | failed
  | exn (msg : String)

/-- One entry of `summary['successful_downloads']`. -/
structure SuccessEntry where
  filename : List Char
  url : List Char
  filepath : String
  deriving Repr, DecidableEq

/-- The summary fields whose relationship the claims are about. -/
structure Summary where
  pdfsFound : Nat
  pdfsDownloaded : Nat
  successes : List SuccessEntry
  failures : List DocumentLink
  errors : List String

/-- The URL-deduplication of `download_all_pdfs` (lines 370-377): walk the
discovered links in order, keeping a link exactly when its `url` has not
been seen before. -/
def dedupAux (seen : List (List Char)) : List DocumentLink → List DocumentLink
  | [] => []
  | l :: ls =>
    if l.url ∈ seen then dedupAux seen ls
    else l :: dedupAux (l.url :: seen) ls

/-- `unique_pdfs`: the discovered links deduplicated by URL, first
occurrence kept. -/
def dedup_by_url (links : List DocumentLink) : List DocumentLink :=
  dedupAux [] links

/-- The download loop over the unique links (lines 380-398): a returned
path increments the counter and appends a success entry; `None` appends the
link to the failures; an exception appends an error message and the link to
the failures. -/
def processLinks (outcome : Nat → DlOutcome) :
    Nat → List DocumentLink → Nat × List SuccessEntry × List DocumentLink × List String
  | _, [] => (0, [], [], [])
  | i, l :: ls =>
    let rest := processLinks outcome (i + 1) ls
    match outcome i with
    | .ok p => (rest.1 + 1, ⟨l.filename, l.url, p⟩ :: rest.2.1, rest.2.2.1, rest.2.2.2)
    | .failed => (rest.1, rest.2.1, l :: rest.2.2.1, rest.2.2.2)
    | .exn m => (rest.1, rest.2.1, l :: rest.2.2.1, m :: rest.2.2.2)

/-- `PDFDownloader.download_all_pdfs`, from the point where the discovered
links of all scanned pages have been concatenated: deduplicate by URL, set
`pdfs_found`, then process every unique link. -/
def download_all_pdfs (links : List DocumentLink) (outcome : Nat → DlOutcome) :
    Summary :=
  let u := dedup_by_url links
  let r := processLinks outcome 0 u
  { pdfsFound := u.length
    pdfsDownloaded := r.1
    successes := r.2.1
    failures := r.2.2.1
    errors := r.2.2.2 }

/-! ## `NIRFDataAnalyzer.load_data` / `basic_statistics` -/

/-- The slice of a persisted corpus record the analyzer's record counting
reads: `extracted_data.full_text` (used for the success flag). -/
structure CorpusRecord where
  fullText : List Char
  deriving Repr, DecidableEq

/-- `NIRFDataAnalyzer.load_data` (lines 61-78): the directory's record
files in glob order, each either parsed (`some`) or failing to parse
(`none`, the logged-and-skipped `except` arm); the loaded data keeps
exactly the parsed records, in order. -/
def load_data (files : List (Option CorpusRecord)) : List CorpusRecord :=
  files.filterMap id

/-- The record counts of `basic_statistics`: with no data the method
returns an error dictionary (`none` here); otherwise one row is counted per
loaded record and a record is a successful extraction when its `full_text`
is non-empty (both the pandas branch and the fallback branch count this
way). -/
structure BasicStats where
  totalColleges : Nat
  successfulExtractions : Nat
  failedExtractions : Nat
  deriving Repr, DecidableEq

/-- `NIRFDataAnalyzer.basic_statistics`, record-count fragment. -/
def basic_statistics (data : List CorpusRecord) : Option BasicStats :=
  if data.isEmpty then none
  else
    let succ := data.countP (fun r => !r.fullText.isEmpty)
    some ⟨data.length, succ, data.length - succ⟩

/-! ## General helper lemmas -/

/-- A list starts with itself followed by anything. -/
theorem startsWithL_append_self {α : Type} [BEq α] [LawfulBEq α]
    (p r : List α) : startsWithL p (p ++ r) = true := by
  induction p with
  | nil => rfl
  | cons a as ih => simp [startsWithL, ih]

/-- Appending a lowercase `.pdf` always yields a name accepted by
`lower().endswith('.pdf')`. -/
theorem lowerEndsWith_append_pdf (x : List Char) :
    lowerEndsWith ".pdf".data (x ++ ".pdf".data) = true := by
  unfold lowerEndsWith endsWithL
  rw [List.map_append, List.reverse_append]
  have h1 : (".pdf".data.map Char.toLower).reverse = ".pdf".data.reverse := by decide
  rw [h1]
  exact startsWithL_append_self _ _

/-! ## Claim C3 — entity-name mining precedence -/

/-- C3 (counterexample): the claim quantifies over every text containing
both `"College: Alpha"` and `"Institute: Beta"`, but `re.search` takes the
leftmost match of the first pattern, so an earlier `College:` label wins:
on `"College: Beta\nCollege: Alpha\nInstitute: Beta"` the mined name is
`"Beta"`, although the text contains both required substrings. -/
theorem college_mining_countereg :
    containsL "College: Alpha".data
        "College: Beta\nCollege: Alpha\nInstitute: Beta".data = true
    ∧ containsL "Institute: Beta".data
        "College: Beta\nCollege: Alpha\nInstitute: Beta".data = true
    ∧ extract_college_name "College: Beta\nCollege: Alpha\nInstitute: Beta".data
        = some "Beta".data := by
  refine ⟨by decide, by decide, by decide⟩

/-- C3 (amended): mining tries the ordered label patterns `College:`,
`Institute:`, `University:`, `Name:` and stops at the first pattern with a
match, whose leftmost captured group (stripped) is the result — whenever
the `College` pattern matches at all, the `Institute` pattern is never
consulted; on the canonical text `"College: Alpha\nInstitute: Beta"` the
result is `"Alpha"`, not `"Beta"`. -/
theorem college_mining_first_pattern_wins :
    (∀ text g, searchLabelLine "College".data text = some g →
        extract_college_name text = some (pyStrip g))
    ∧ extract_college_name "College: Alpha\nInstitute: Beta".data
        = some "Alpha".data := by
  constructor
  · intro text g h
    simp [extract_college_name, h]
  · decide

/-- C3 (witness): the general precedence statement applied to the canonical
text. -/
theorem college_mining_first_pattern_wins_witness :
    extract_college_name "College: Alpha\nInstitute: Beta".data
      = some (pyStrip "Alpha".data) :=
  college_mining_first_pattern_wins.1 "College: Alpha\nInstitute: Beta".data
    "Alpha".data (by decide)

/-! ## Claim C4 — score mining collects all matches -/

/-- When the score-token `float` conversions succeed, the structured data
is exactly the record the source builds. -/
theorem extract_structured_data_ok_fields (text : List Char) (fl : List ℚ)
    (h : floatsOf (scoreTokens text) = Except.ok fl) :
    extract_structured_data text = Except.ok
      { collegeName := extract_college_name text
        location := extract_location text
        rank := extract_rank text
        scores := if fl.isEmpty then none else some fl
        averageScore :=
          if fl.isEmpty then none else some (fl.sum / (fl.length : ℚ))
        allNumbers :=
          if (findallNumbers text).isEmpty then none
          else some ((findallNumbers text).take 20) } := by
  simp only [extract_structured_data, h]

/-- C4: score mining collects all matches across the `Score`/`Rating`/
`Points` patterns (in pattern order, document order within a pattern) and
sets the average to the arithmetic mean; `"Score: 80"` plus `"Rating: 90"`
yields scores `[80, 90]` with average `85`; and a text with no score-label
matches yields a `structured_data` with no `scores` and no `average_score`
key. -/
theorem scores_collect_all_and_absent_keys :
    (∃ s, extract_structured_data "Score: 80\nRating: 90".data = Except.ok s
        ∧ s.scores = some [(80 : ℚ), 90] ∧ s.averageScore = some 85)
    ∧ (∀ text fl, floatsOf (scoreTokens text) = Except.ok fl →
        ∀ s, extract_structured_data text = Except.ok s →
          s.scores = (if fl.isEmpty then none else some fl)
          ∧ s.averageScore
              = (if fl.isEmpty then none else some (fl.sum / (fl.length : ℚ))))
    ∧ (∀ text, scoreTokens text = [] →
        ∃ s, extract_structured_data text = Except.ok s
          ∧ s.scores = none ∧ s.averageScore = none) := by
  refine ⟨?_, ?_, ?_⟩
  · have hf : floatsOf (scoreTokens "Score: 80\nRating: 90".data)
        = Except.ok [(80 : ℚ), 90] := by rfl
    refine ⟨_, extract_structured_data_ok_fields _ _ hf, by simp, ?_⟩
    norm_num
  · intro text fl h s hs
    rw [extract_structured_data_ok_fields text fl h] at hs
    cases hs
    exact ⟨rfl, rfl⟩
  · intro text h
    have h2 : floatsOf (scoreTokens text) = Except.ok [] := by rw [h]; rfl
    exact ⟨_, extract_structured_data_ok_fields _ _ h2, by simp, by simp⟩

/-- C4 (witness): the absent-keys statement applied to a concrete
score-free text. -/
theorem scores_collect_all_and_absent_keys_witness :
    ∃ s, extract_structured_data "abc".data = Except.ok s
      ∧ s.scores = none ∧ s.averageScore = none :=
  scores_collect_all_and_absent_keys.2.2 "abc".data (by decide)

/-! ## Claim C9 — corpus loading skips corrupt records -/

/-- C9: loading a directory with one well-formed and one non-parseable
record file (in either order) yields exactly the well-formed record without
aborting, the statistics count exactly 1 record, and in general the number
of loaded records equals the number of parseable files. -/
theorem corpus_load_skips_corrupt :
    (∀ r : CorpusRecord,
        load_data [some r, none] = [r]
        ∧ load_data [none, some r] = [r]
        ∧ (basic_statistics (load_data [some r, none])).map BasicStats.totalColleges
            = some 1)
    ∧ ∀ files : List (Option CorpusRecord),
        (load_data files).length = files.countP Option.isSome := by
  constructor
  · intro r
    refine ⟨rfl, rfl, rfl⟩
  · intro files
    induction files with
    | nil => rfl
    | cons o t ih =>
      cases o <;> simp [load_data, List.countP_cons, List.filterMap_cons] <;>
        simpa [load_data] using ih

/-! ## Claim C7 — filename resolver extension and length bound -/

/-- Every URL-derived branch of the resolver yields a name ending in
`.pdf` up to case. -/
theorem lowerEndsWith_fallback (digest : List Char → List Char)
    (url : List Char) :
    lowerEndsWith ".pdf".data (url_fallback_name digest url) = true := by
  simp only [url_fallback_name]
  split
  · rename_i h
    exact (Bool.and_eq_true _ _ |>.mp h).2
  · split
    · split
      · exact lowerEndsWith_append_pdf _
      · exact lowerEndsWith_append_pdf _
    · exact lowerEndsWith_append_pdf _

/-- The title branch of `_generate_filename`: when the title is non-empty,
its stripped form is longer than 3 and the sanitized title is non-empty,
the result is the truncated clean title with the extension appended. -/
theorem generate_filename_title_branch (digest : List Char → List Char)
    (maxLen : Nat) (url title : List Char)
    (h1 : title.isEmpty = false) (h2 : 3 < (pyStrip title).length)
    (h3 : (cleanTitleOf maxLen title).isEmpty = false) :
    generate_filename digest maxLen url title
      = cleanTitleOf maxLen title ++ ".pdf".data := by
  simp [generate_filename, h1, h2, h3]

/-- C7 (counterexample): the resolver is not length-bounded — a URL whose
last path segment has 120 characters (and no `.pdf` suffix) yields a
124-character filename, beyond the `maxLen + 4 = 104` bound the truncation
enforces in the title branch; and the URL-basename branch returns the
basename verbatim, so `".PDF"` names do not end in the lowercase `".pdf"`
extension. -/
theorem generate_filename_countereg :
    (generate_filename (fun _ => []) 100
        ("http://h/".data ++ List.replicate 120 'a') []).length = 124
    ∧ ¬((generate_filename (fun _ => []) 100
        ("http://h/".data ++ List.replicate 120 'a') []).length ≤ 100 + 4)
    ∧ generate_filename (fun _ => []) 100 "http://h/DOC.PDF".data []
        = "DOC.PDF".data
    ∧ endsWithL ".pdf".data "DOC.PDF".data = false := by
  refine ⟨by decide, by decide, by decide, by decide⟩

/-- C7 (amended): every branch of the resolver produces a name ending in
`.pdf` up to case (`lower().endswith('.pdf')`), and the title-derived name
is truncated to the configured maximum length before the extension is
appended, so that branch's output has length at most `maxLen + 4`; the
URL-derived branches are not truncated. -/
theorem generate_filename_ext_and_title_bound :
    ∀ (digest : List Char → List Char) (maxLen : Nat) (url title : List Char),
      lowerEndsWith ".pdf".data (generate_filename digest maxLen url title) = true
      ∧ (title.isEmpty = false → 3 < (pyStrip title).length →
          (cleanTitleOf maxLen title).isEmpty = false →
          generate_filename digest maxLen url title
              = cleanTitleOf maxLen title ++ ".pdf".data
          ∧ (generate_filename digest maxLen url title).length ≤ maxLen + 4) := by
  intro digest maxLen url title
  constructor
  · simp only [generate_filename]
    split
    · split
      · exact lowerEndsWith_fallback digest url
      · exact lowerEndsWith_append_pdf _
    · exact lowerEndsWith_fallback digest url
  · intro h1 h2 h3
    have he := generate_filename_title_branch digest maxLen url title h1 h2 h3
    refine ⟨he, ?_⟩
    rw [he, List.length_append]
    have hlen : (cleanTitleOf maxLen title).length ≤ maxLen := by
      unfold cleanTitleOf
      exact List.length_take_le _ _
    have h4 : (".pdf".data).length = 4 := rfl
    omega

/-- C7 (witness): the general statement applied to a concrete URL and
title. -/
theorem generate_filename_ext_and_title_bound_witness :
    lowerEndsWith ".pdf".data
        (generate_filename (fun _ => []) 100 "http://e/x".data
          "Research Paper".data) = true
    ∧ generate_filename (fun _ => []) 100 "http://e/x".data
          "Research Paper".data
        = cleanTitleOf 100 "Research Paper".data ++ ".pdf".data
    ∧ (generate_filename (fun _ => []) 100 "http://e/x".data
          "Research Paper".data).length ≤ 100 + 4 := by
  have h := generate_filename_ext_and_title_bound (fun _ => []) 100
    "http://e/x".data "Research Paper".data
  have hb := h.2 (by decide) (by decide) (by decide)
  exact ⟨h.1, hb.1, hb.2⟩

/-! ## Claim C5 — retry exhaustion and exponential backoff -/

/-- When every attempt fails at transport level, the retry loop runs all
its remaining iterations, sleeps `2 ^ attempt` after each failed attempt
except the last, returns `None` and leaves the filesystem unchanged. -/
theorem downloadGo_allfail (cfg : DlConfig) (info : PdfInfo) (path : String)
    (net : Nat → NetResult) (fs : String → Option (List Nat)) :
    ∀ k i, i + k = cfg.maxRetries →
      (∀ j, j < cfg.maxRetries → net j = NetResult.failure) →
      downloadGo cfg info path net fs k i
        = ⟨none, cfg.maxRetries,
            (List.range' i (k - 1)).map (fun a => 2 ^ a), false, fs⟩ := by
  intro k
  induction k with
  | zero =>
    intro i hi _
    simp only [downloadGo]
    rw [← hi]
    simp
  | succ k ih =>
    intro i hi hnet
    have hilt : i < cfg.maxRetries := by omega
    rw [downloadGo, hnet i hilt]
    by_cases hlast : i + 1 = cfg.maxRetries
    · have hk : k = 0 := by omega
      subst hk
      simp [hlast]
    · rw [if_neg hlast]
      have hk : k ≠ 0 := by omega
      obtain ⟨k', rfl⟩ := Nat.exists_eq_succ_of_ne_zero hk
      rw [ih (i + 1) (by omega) hnet]
      simp [List.range'_succ]

/-- C5: against an endpoint failing at transport level on every attempt,
`download_pdf` (with no pre-existing file) makes exactly `maxRetries`
attempts, sleeps `2 ^ attempt` seconds after each failed attempt except the
final one, and returns a failed result to the caller instead of raising. -/
theorem download_retry_exhaustion :
    ∀ (cfg : DlConfig) (info : PdfInfo) (net : Nat → NetResult)
      (fs : String → Option (List Nat)),
      fs (target_path cfg info) = none →
      (∀ j, j < cfg.maxRetries → net j = NetResult.failure) →
      download_pdf cfg info net fs
        = ⟨none, cfg.maxRetries,
            (List.range (cfg.maxRetries - 1)).map (fun a => 2 ^ a), false, fs⟩ := by
  intro cfg info net fs hfs hnet
  simp only [download_pdf, hfs, Option.isSome_none, Bool.false_eq_true, if_false]
  rw [List.range_eq_range']
  exact downloadGo_allfail cfg info (target_path cfg info) net fs
    cfg.maxRetries 0 (by omega) hnet

/-- C5 (witness): three retries against an always-failing endpoint make 3
attempts, sleep 1 then 2 seconds, and fail. -/
theorem download_retry_exhaustion_witness :
    download_pdf ⟨3, true, false, 0, "dl"⟩ ⟨"http://h/x", "x.pdf"⟩
        (fun _ => NetResult.failure) (fun _ => none)
      = ⟨none, 3, [1, 2], false, fun _ => none⟩ := by
  rw [download_retry_exhaustion _ _ _ _ rfl (fun j _ => rfl)]
  rfl

/-! ## Claim C2 — what success guarantees about the file -/

/-- A `some` result of the retry loop is always the target path, and the
resulting filesystem has an entry there. -/
theorem downloadGo_success (cfg : DlConfig) (info : PdfInfo) (path : String)
    (net : Nat → NetResult) (fs : String → Option (List Nat)) :
    ∀ k i p, (downloadGo cfg info path net fs k i).result = some p →
      p = path ∧ ((downloadGo cfg info path net fs k i).fs p).isSome = true := by
  intro k
  induction k with
  | zero =>
    intro i p h
    simp [downloadGo] at h
  | succ k ih =>
    intro i p h
    cases hn : net i with
    | failure =>
      rw [downloadGo, hn] at h ⊢
      by_cases hlast : i + 1 = cfg.maxRetries
      · rw [if_pos hlast] at h
        simp at h
      · rw [if_neg hlast] at h ⊢
        exact ih (i + 1) p h
    | otherError =>
      rw [downloadGo, hn] at h
      simp at h
    | response ct body =>
      rw [downloadGo, hn] at h ⊢
      have hp : p = path := by
        simpa using h.symm
      subst hp
      simp [fsUpdate]

/-- A `some` result of `download_pdf` is the resolved target path, and the
filesystem after the call has an entry there. -/
theorem download_pdf_success (cfg : DlConfig) (info : PdfInfo)
    (net : Nat → NetResult) (fs : String → Option (List Nat)) (p : String) :
    (download_pdf cfg info net fs).result = some p →
    p = target_path cfg info
      ∧ ((download_pdf cfg info net fs).fs p).isSome = true := by
  simp only [download_pdf]
  by_cases hex : (fs (target_path cfg info)).isSome = true
  · rw [if_pos hex]
    intro h
    have hp : p = target_path cfg info := by simpa using h.symm
    subst hp
    exact ⟨rfl, hex⟩
  · rw [if_neg hex]
    exact downloadGo_success cfg info _ net fs cfg.maxRetries 0 p

/-- C2 (counterexample): with verification enabled, a success does not
guarantee a non-empty `%PDF`-signed file — a 200 response whose
content-type claims PDF but whose body is empty is written verbatim and
returned as a success, leaving an existing but empty file without the
signature. -/
theorem download_success_not_pdf_countereg :
    (download_pdf ⟨3, true, false, 0, "dl"⟩ ⟨"http://h/x", "x.pdf"⟩
        (fun _ => NetResult.response "application/pdf" []) (fun _ => none)).result
      = some "dl/x.pdf"
    ∧ (⟨3, true, false, 0, "dl"⟩ : DlConfig).verifyPdfContent = true
    ∧ (download_pdf ⟨3, true, false, 0, "dl"⟩ ⟨"http://h/x", "x.pdf"⟩
        (fun _ => NetResult.response "application/pdf" []) (fun _ => none)).fs
        "dl/x.pdf" = some []
    ∧ ([] : List Nat).length = 0
    ∧ startsWithL pdfSigBytes ([] : List Nat) = false := by
  refine ⟨by decide, rfl, by decide, rfl, rfl⟩

/-- C2 (amended): whenever `download_pdf` returns a filepath, that path is
the resolved target path and the file exists there (its content is the
fetched body, which may be empty and need not carry the `%PDF` signature —
content verification only logs a warning and never blocks success). -/
theorem download_success_file_exists :
    ∀ (cfg : DlConfig) (info : PdfInfo) (net : Nat → NetResult)
      (fs : String → Option (List Nat)) (p : String),
      (download_pdf cfg info net fs).result = some p →
      p = target_path cfg info
        ∧ ∃ c, (download_pdf cfg info net fs).fs p = some c := by
  intro cfg info net fs p h
  obtain ⟨h1, h2⟩ := download_pdf_success cfg info net fs p h
  exact ⟨h1, Option.isSome_iff_exists.mp h2⟩

/-- C2 (witness): the amended statement applied to a concrete successful
download. -/
theorem download_success_file_exists_witness :
    ∃ c, (download_pdf ⟨3, true, false, 0, "dl"⟩ ⟨"http://h/x", "x.pdf"⟩
        (fun _ => NetResult.response "application/pdf" [1, 2])
        (fun _ => none)).fs "dl/x.pdf" = some c :=
  (download_success_file_exists ⟨3, true, false, 0, "dl"⟩ ⟨"http://h/x", "x.pdf"⟩
    (fun _ => NetResult.response "application/pdf" [1, 2]) (fun _ => none)
    "dl/x.pdf" (by decide)).2

/-! ## Claim C6 — download idempotence -/

/-- C6: when the resolved target file already exists, `download_pdf`
returns it as a success with zero network attempts and an unchanged
filesystem; consequently a second call for the same link against the
filesystem left by a successful first call is a no-op success returning the
same path, so the network is used by the first call only. -/
theorem download_idempotent :
    ∀ (cfg : DlConfig) (info : PdfInfo) (net net' : Nat → NetResult)
      (fs : String → Option (List Nat)),
      ((fs (target_path cfg info)).isSome = true →
        download_pdf cfg info net fs
          = ⟨some (target_path cfg info), 0, [], false, fs⟩)
      ∧ (∀ p, (download_pdf cfg info net fs).result = some p →
          download_pdf cfg info net' ((download_pdf cfg info net fs).fs)
            = ⟨some p, 0, [], false, (download_pdf cfg info net fs).fs⟩) := by
  intro cfg info net net' fs
  constructor
  · intro h
    simp only [download_pdf]
    rw [if_pos h]
  · intro p h
    obtain ⟨h1, h2⟩ := download_pdf_success cfg info net fs p h
    subst h1
    set F := (download_pdf cfg info net fs).fs with hF
    show download_pdf cfg info net' F = _
    simp only [download_pdf]
    rw [if_pos h2]

/-- C6 (witness): the skip-if-exists statement applied to a filesystem that
already holds the target file. -/
theorem download_idempotent_witness :
    download_pdf ⟨3, true, false, 0, "dl"⟩ ⟨"http://h/x", "x.pdf"⟩
        (fun _ => NetResult.failure)
        (fun p => if p = "dl/x.pdf" then some [1] else none)
      = ⟨some (target_path ⟨3, true, false, 0, "dl"⟩ ⟨"http://h/x", "x.pdf"⟩),
          0, [], false, fun p => if p = "dl/x.pdf" then some [1] else none⟩ :=
  (download_idempotent ⟨3, true, false, 0, "dl"⟩ ⟨"http://h/x", "x.pdf"⟩
    (fun _ => NetResult.failure) (fun _ => NetResult.failure)
    (fun p => if p = "dl/x.pdf" then some [1] else none)).1 (by decide)

/-! ## Claim C8 — extraction never throws -/

/-- C8: extraction is total — a failure to open/read the document yields
the error-fallback document, a `ValueError` raised by structured-data
mining is caught into the same fallback, and when mining succeeds every
page contributes exactly one entry in physical order: a failing page
contributes an empty-text, zero-count entry carrying its error note
without disturbing the entries of the other pages. -/
theorem extraction_never_throws :
    ∀ (f msg : String) (r : PdfReader),
      extract_text_from_pdf f (OpenOutcome.failure msg) = errorDoc f msg
      ∧ (∀ e, extract_structured_data (fullTextOf r) = Except.error e →
          extract_text_from_pdf f (OpenOutcome.ok r) = errorDoc f e)
      ∧ (∀ sd, extract_structured_data (fullTextOf r) = Except.ok sd →
          (extract_text_from_pdf f (OpenOutcome.ok r)).pages.length
              = r.pages.length
          ∧ (∀ (i : Nat) (t : List Char),
              r.pages[i]? = some (PageOutcome.ok t) →
              (extract_text_from_pdf f (OpenOutcome.ok r)).pages[i]?
                = some (⟨i + 1, t, t.length, none⟩ : PageEntry))
          ∧ (∀ (i : Nat) (e : String),
              r.pages[i]? = some (PageOutcome.err e) →
              (extract_text_from_pdf f (OpenOutcome.ok r)).pages[i]?
                = some (⟨i + 1, [], 0, some e⟩ : PageEntry))) := by
  intro f msg r
  refine ⟨rfl, ?_, ?_⟩
  · intro e he
    simp [extract_text_from_pdf, he]
  · intro sd hsd
    have hp : (extract_text_from_pdf f (OpenOutcome.ok r)).pages
        = r.pages.enum.map (fun ip => pageEntryOf ip.1 ip.2) := by
      simp [extract_text_from_pdf, hsd]
    refine ⟨?_, ?_, ?_⟩
    · rw [hp]
      simp [List.enum_length]
    · intro i t h
      rw [hp, List.getElem?_map, List.getElem?_enum, h]
      rfl
    · intro i e h
      rw [hp, List.getElem?_map, List.getElem?_enum, h]
      rfl

/-- C8 (witness): on a three-page document whose middle page fails, the
middle entry is the empty-text error entry. -/
theorem extraction_never_throws_witness :
    (extract_text_from_pdf "x.pdf"
        (OpenOutcome.ok ⟨[PageOutcome.ok "ab".data, PageOutcome.err "boom",
          PageOutcome.ok "cd".data], none, 7⟩)).pages[1]?
      = some (⟨2, [], 0, some "boom"⟩ : PageEntry) :=
  ((extraction_never_throws "x.pdf" "m"
      ⟨[PageOutcome.ok "ab".data, PageOutcome.err "boom",
        PageOutcome.ok "cd".data], none, 7⟩).2.2 _ (by rfl)).2.2 1 "boom" rfl

/-! ## Claim C1 — discovery result de-duplication -/

/-- `addUnique` never introduces a duplicate entry. -/
theorem addUnique_nodup {acc : List DocumentLink} {l : DocumentLink}
    (h : acc.Nodup) : (addUnique acc l).Nodup := by
  unfold addUnique
  split
  · exact h
  · rename_i hmem
    refine List.Nodup.append h (List.nodup_singleton l) ?_
    intro a ha hb
    simp only [List.mem_singleton] at hb
    subst hb
    exact hmem ha

/-- `addIfSome` never introduces a duplicate entry. -/
theorem addIfSome_nodup {acc : List DocumentLink} {o : Option DocumentLink}
    (h : acc.Nodup) : (addIfSome acc o).Nodup := by
  cases o with
  | none => exact h
  | some l => exact addUnique_nodup h

/-- A fold whose step preserves `Nodup` preserves `Nodup`. -/
theorem foldl_nodup {β : Type} (g : List DocumentLink → β → List DocumentLink)
    (hg : ∀ acc b, acc.Nodup → (g acc b).Nodup) :
    ∀ (xs : List β) (acc : List DocumentLink),
      acc.Nodup → (xs.foldl g acc).Nodup := by
  intro xs
  induction xs with
  | nil => exact fun acc h => h
  | cons x xs ih => exact fun acc h => ih _ (hg _ _ h)

/-- The count of URL `v` in `unique_pdfs` given the already-seen set. -/
theorem dedupAux_countP (v : List Char) :
    ∀ (links : List DocumentLink) (seen : List (List Char)),
      (dedupAux seen links).countP (fun l => decide (l.url = v))
        = if v ∈ seen then 0
          else if v ∈ links.map DocumentLink.url then 1 else 0 := by
  intro links
  induction links with
  | nil => intro seen; simp [dedupAux]
  | cons l ls ih =>
    intro seen
    simp only [dedupAux]
    by_cases hls : l.url ∈ seen
    · rw [if_pos hls, ih seen]
      by_cases hv : v ∈ seen
      · simp [hv]
      · have hne : v ≠ l.url := fun h => hv (h ▸ hls)
        simp [hv, List.mem_cons, hne]
    · rw [if_neg hls, List.countP_cons, ih (l.url :: seen)]
      by_cases hv : v = l.url
      · subst hv
        simp [hls]
      · have hd : (decide (l.url = v)) = false := by
          simp [Ne.symm hv]
        simp [hd, List.mem_cons, hv]

/-- C1 (counterexample): a page with two anchors whose hrefs resolve to the
same absolute URL but whose link texts differ yields two `DocumentLink`s
for that URL in the result of `discover_pdf_links` — its membership test
compares whole dictionaries, which differ in `title`, `filename` and
`link_text`. -/
theorem discovery_url_dedup_countereg :
    (discover_links_page (fun _ => "HASH".data) 100 urljoinApprox
        "http://example.com/page.html".data
        [⟨"a.pdf".data, "Download here now".data, [], [], none⟩,
         ⟨"a.pdf".data, "Click this link".data, [], [], none⟩] []).countP
      (fun l => decide (l.url = "http://example.com/a.pdf".data)) = 2
    ∧ "Download here now".data ≠ "Click this link".data := by
  refine ⟨by decide, by decide⟩

/-- C1 (amended): `discover_pdf_links` de-duplicates by whole link record,
so its result never contains the same dictionary twice (but may contain one
URL twice under different titles); the de-duplication by URL happens in
`download_all_pdfs`, whose `unique_pdfs` list contains exactly one entry
per discovered URL. -/
theorem discovery_dedup_semantics :
    (∀ (digest : List Char → List Char) (maxLen : Nat)
        (join : List Char → List Char → List Char) (targetUrl : List Char)
        (anchors : List Anchor) (embedded : List EmbTag),
        (discover_links_page digest maxLen join targetUrl anchors embedded).Nodup)
    ∧ (∀ (links : List DocumentLink) (v : List Char),
        v ∈ links.map DocumentLink.url →
        (dedup_by_url links).countP (fun l => decide (l.url = v)) = 1) := by
  constructor
  · intro digest maxLen join targetUrl anchors embedded
    unfold discover_links_page
    apply foldl_nodup
    · intro acc t h
      split
      · exact addUnique_nodup h
      · exact h
    · apply foldl_nodup
      · intro acc a h
        split
        · exact addIfSome_nodup h
        · exact h
      · apply foldl_nodup
        · intro acc sel h
          apply foldl_nodup
          · intro acc' a h'
            split
            · exact h'
            · exact addIfSome_nodup h'
          · exact h
        · exact List.nodup_nil
  · intro links v hv
    rw [dedup_by_url, dedupAux_countP v links []]
    simp [hv]

/-- C1 (witness): the URL-level statement applied to two concrete links
sharing a URL. -/
theorem discovery_dedup_semantics_witness :
    (dedup_by_url [⟨"u".data, "t".data, "f".data, "s".data, "x".data⟩,
        ⟨"u".data, "t2".data, "f2".data, "s".data, "y".data⟩]).countP
      (fun l => decide (l.url = "u".data)) = 1 :=
  discovery_dedup_semantics.2
    [⟨"u".data, "t".data, "f".data, "s".data, "x".data⟩,
     ⟨"u".data, "t2".data, "f2".data, "s".data, "y".data⟩]
    "u".data (by decide)

/-! ## Claim C10 — summary consistency of `download_all_pdfs` -/

/-- A URL is among the deduplicated links' URLs exactly when it is a
discovered URL not already seen. -/
theorem dedupAux_mem_url (v : List Char) :
    ∀ (links : List DocumentLink) (seen : List (List Char)),
      v ∈ (dedupAux seen links).map DocumentLink.url
        ↔ (v ∈ links.map DocumentLink.url ∧ v ∉ seen) := by
  intro links
  induction links with
  | nil => intro seen; simp [dedupAux]
  | cons l ls ih =>
    intro seen
    simp only [dedupAux]
    by_cases hls : l.url ∈ seen
    · rw [if_pos hls, ih seen]
      constructor
      · exact fun ⟨h1, h2⟩ => ⟨List.mem_cons_of_mem _ h1, h2⟩
      · rintro ⟨h1, h2⟩
        rcases List.mem_cons.mp h1 with h | h
        · exact absurd (h ▸ hls) h2
        · exact ⟨h, h2⟩
    · rw [if_neg hls]
      simp only [List.map_cons, List.mem_cons, ih (l.url :: seen)]
      constructor
      · rintro (h | ⟨h1, h2⟩)
        · exact ⟨Or.inl h, h ▸ hls⟩
        · exact ⟨Or.inr h1, fun hs => h2 (Or.inr hs)⟩
      · rintro ⟨h1, h2⟩
        by_cases hv : v = l.url
        · exact Or.inl hv
        · rcases h1 with h | h
          · exact absurd h hv
          · exact Or.inr ⟨h, by simp [List.mem_cons, hv, h2]⟩

/-- The URLs of `unique_pdfs` are pairwise distinct. -/
theorem dedupAux_urls_nodup :
    ∀ (links : List DocumentLink) (seen : List (List Char)),
      ((dedupAux seen links).map DocumentLink.url).Nodup := by
  intro links
  induction links with
  | nil => intro seen; simp [dedupAux]
  | cons l ls ih =>
    intro seen
    simp only [dedupAux]
    split
    · exact ih seen
    · simp only [List.map_cons, List.nodup_cons]
      refine ⟨fun hmem => ?_, ih (l.url :: seen)⟩
      exact ((dedupAux_mem_url l.url ls (l.url :: seen)).mp hmem).2
        (List.mem_cons_self _ _)

/-- `pdfs_found` counts exactly the distinct discovered URLs. -/
theorem dedup_length_card (links : List DocumentLink) :
    (dedup_by_url links).length = (links.map DocumentLink.url).toFinset.card := by
  have h1 : ((dedup_by_url links).map DocumentLink.url).Nodup :=
    dedupAux_urls_nodup links []
  have h2 : ((dedup_by_url links).map DocumentLink.url).toFinset
      = (links.map DocumentLink.url).toFinset := by
    ext v
    simp only [List.mem_toFinset]
    exact ⟨fun h => ((dedupAux_mem_url v links []).mp h).1,
           fun h => (dedupAux_mem_url v links []).mpr ⟨h, List.not_mem_nil v⟩⟩
  calc (dedup_by_url links).length
      = ((dedup_by_url links).map DocumentLink.url).length :=
        (List.length_map _ _).symm
    _ = ((dedup_by_url links).map DocumentLink.url).toFinset.card :=
        (List.toFinset_card_of_nodup h1).symm
    _ = (links.map DocumentLink.url).toFinset.card := by rw [h2]

/-- The download counter equals the number of success entries, and every
processed link lands in exactly one of the two lists. -/
theorem processLinks_len (outcome : Nat → DlOutcome) :
    ∀ (u : List DocumentLink) (i : Nat),
      (processLinks outcome i u).1 = (processLinks outcome i u).2.1.length
      ∧ (processLinks outcome i u).2.1.length
          + (processLinks outcome i u).2.2.1.length = u.length := by
  intro u
  induction u with
  | nil => intro i; exact ⟨rfl, rfl⟩
  | cons l ls ih =>
    intro i
    obtain ⟨ih1, ih2⟩ := ih (i + 1)
    cases ho : outcome i <;>
      simp only [processLinks, ho, List.length_cons] <;> omega

/-- Every success entry and every failure entry of the loop carries the URL
of one of the processed links. -/
theorem processLinks_mem_urls (outcome : Nat → DlOutcome) :
    ∀ (u : List DocumentLink) (i : Nat),
      (∀ e ∈ (processLinks outcome i u).2.1, e.url ∈ u.map DocumentLink.url)
      ∧ (∀ x ∈ (processLinks outcome i u).2.2.1,
          x.url ∈ u.map DocumentLink.url) := by
  intro u
  induction u with
  | nil => intro i; simp [processLinks]
  | cons l ls ih =>
    intro i
    obtain ⟨ih1, ih2⟩ := ih (i + 1)
    have hmem_self : l.url ∈ (l :: ls).map DocumentLink.url := by
      rw [List.map_cons]
      exact List.mem_cons_self _ _
    have hmem_of : ∀ w, w ∈ ls.map DocumentLink.url →
        w ∈ (l :: ls).map DocumentLink.url := by
      intro w hw
      rw [List.map_cons]
      exact List.mem_cons_of_mem _ hw
    cases ho : outcome i with
    | ok p =>
      refine ⟨?_, ?_⟩
      · intro e he
        simp only [processLinks, ho] at he
        rcases List.mem_cons.mp he with rfl | he'
        · exact hmem_self
        · exact hmem_of _ (ih1 _ he')
      · intro x hx
        simp only [processLinks, ho] at hx
        exact hmem_of _ (ih2 _ hx)
    | failed =>
      refine ⟨?_, ?_⟩
      · intro e he
        simp only [processLinks, ho] at he
        exact hmem_of _ (ih1 _ he)
      · intro x hx
        simp only [processLinks, ho] at hx
        rcases List.mem_cons.mp hx with rfl | hx'
        · exact hmem_self
        · exact hmem_of _ (ih2 _ hx')
    | exn m =>
      refine ⟨?_, ?_⟩
      · intro e he
        simp only [processLinks, ho] at he
        exact hmem_of _ (ih1 _ he)
      · intro x hx
        simp only [processLinks, ho] at hx
        rcases List.mem_cons.mp hx with rfl | hx'
        · exact hmem_self
        · exact hmem_of _ (ih2 _ hx')

/-- With pairwise-distinct URLs, each processed link is recorded in exactly
one of `successful_downloads` and `failed_downloads`. -/
theorem processLinks_unique (outcome : Nat → DlOutcome) :
    ∀ (u : List DocumentLink) (i : Nat), (u.map DocumentLink.url).Nodup →
      ∀ l ∈ u,
        (processLinks outcome i u).2.1.countP (fun e => decide (e.url = l.url))
          + (processLinks outcome i u).2.2.1.countP
              (fun x => decide (x.url = l.url)) = 1 := by
  intro u
  induction u with
  | nil => intro i _ l hl; exact absurd hl (List.not_mem_nil l)
  | cons hd ls ih =>
    intro i hnd l hl
    simp only [List.map_cons, List.nodup_cons] at hnd
    obtain ⟨hhd, hnd'⟩ := hnd
    rcases List.mem_cons.mp hl with rfl | hl'
    · have hs0 : (processLinks outcome (i + 1) ls).2.1.countP
          (fun e => decide (e.url = l.url)) = 0 := by
        apply List.countP_eq_zero.mpr
        intro e he
        simp only [decide_eq_true_eq]
        intro hurl
        exact hhd (hurl ▸ (processLinks_mem_urls outcome ls (i + 1)).1 e he)
      have hf0 : (processLinks outcome (i + 1) ls).2.2.1.countP
          (fun x => decide (x.url = l.url)) = 0 := by
        apply List.countP_eq_zero.mpr
        intro x hx
        simp only [decide_eq_true_eq]
        intro hurl
        exact hhd (hurl ▸ (processLinks_mem_urls outcome ls (i + 1)).2 x hx)
      cases ho : outcome i <;>
        simp [processLinks, ho, List.countP_cons, hs0, hf0]
    · have hne : hd.url ≠ l.url := by
        intro h
        exact hhd (h ▸ List.mem_map_of_mem DocumentLink.url hl')
      have hrec := ih (i + 1) hnd' l hl'
      cases ho : outcome i <;>
        simp [processLinks, ho, List.countP_cons, hne] <;> omega

/-- C10: after `download_all_pdfs`, `pdfs_found` equals the number of
distinct discovered URLs, `pdfs_downloaded` equals the length of
`successful_downloads`, the two lists partition the unique links
(`pdfs_found = len(successful) + len(failed)`), and every unique link is
recorded in exactly one of the two lists. -/
theorem summary_consistency :
    ∀ (links : List DocumentLink) (outcome : Nat → DlOutcome),
      (download_all_pdfs links outcome).pdfsFound
          = (links.map DocumentLink.url).toFinset.card
      ∧ (download_all_pdfs links outcome).pdfsDownloaded
          = (download_all_pdfs links outcome).successes.length
      ∧ (download_all_pdfs links outcome).successes.length
            + (download_all_pdfs links outcome).failures.length
          = (download_all_pdfs links outcome).pdfsFound
      ∧ ∀ l ∈ dedup_by_url links,
          (download_all_pdfs links outcome).successes.countP
              (fun e => decide (e.url = l.url))
            + (download_all_pdfs links outcome).failures.countP
              (fun x => decide (x.url = l.url)) = 1 := by
  intro links outcome
  obtain ⟨h1, h2⟩ := processLinks_len outcome (dedup_by_url links) 0
  refine ⟨dedup_length_card links, h1, h2, ?_⟩
  intro l hl
  exact processLinks_unique outcome (dedup_by_url links) 0
    (dedupAux_urls_nodup links []) l hl

/-- C10 (witness): the exactly-one statement applied to a concrete run. -/
theorem summary_consistency_witness :
    (download_all_pdfs [⟨"u".data, "t".data, "f".data, "s".data, "x".data⟩]
        (fun _ => DlOutcome.failed)).successes.countP
        (fun e => decide (e.url = "u".data))
      + (download_all_pdfs [⟨"u".data, "t".data, "f".data, "s".data, "x".data⟩]
          (fun _ => DlOutcome.failed)).failures.countP
        (fun x => decide (x.url = "u".data)) = 1 :=
  (summary_consistency [⟨"u".data, "t".data, "f".data, "s".data, "x".data⟩]
    (fun _ => DlOutcome.failed)).2.2.2
    ⟨"u".data, "t".data, "f".data, "s".data, "x".data⟩ (by decide)

end PdfPipeline
